import Mathlib

/-!
Shallow embedding of the molsolvent trajectory-analysis core (packages util,
gr, nopbc, radiusgyration, disttwoatoms, volume) and proofs about it.

Modelling conventions:
* Go `float64` values are modelled exactly by `ℚ`; `math.Sqrt` by `Real.sqrt`
  over `ℝ`.
* An input stream is the list of its lines, each line without its terminator;
  `bufio.Reader.ReadSlice('\n')` at end of stream returns an empty line and an
  error that every embedded call site ignores.
* Go maps that the source fills in a fixed key order are modelled by
  association lists in that order.
-/

/-- A three-component coordinate vector, one rational per axis. -/
abbrev Vec3 := ℚ × ℚ × ℚ

/-- The empty string: what reading a line at end of stream yields. -/
def emptyStr : String := ""

/-- Blank characters for field splitting (space and tab). -/
def isBlank (c : Char) : Bool := c.toNat = 32 || c.toNat = 9

/-- Accumulator for `goFields`: split a character list into maximal runs of
non-blank characters. -/
def fieldsAux : List Char → List Char → List String
  | [], cur => if cur = [] then [] else [String.mk cur.reverse]
  | c :: cs, cur =>
    if isBlank c then
      (if cur = [] then fieldsAux cs [] else String.mk cur.reverse :: fieldsAux cs [])
    else fieldsAux cs (c :: cur)

/-- Go `strings.Fields`: the whitespace-separated tokens of a line. -/
def goFields (s : String) : List String := fieldsAux s.toList []

/-- Go `strings.TrimSpace` restricted to the blanks of `isBlank`. -/
def goTrim (s : String) : String :=
  String.mk (((s.toList.dropWhile (fun c => isBlank c)).reverse.dropWhile
    (fun c => isBlank c)).reverse)

/-- Decimal digits of a character run, most significant first. -/
def digitsValAux : ℕ → List Char → Option ℕ
  | acc, [] => some acc
  | acc, c :: cs => if c.isDigit then digitsValAux (acc * 10 + (c.toNat - 48)) cs else none

/-- Go `strconv.Atoi`: an optional sign followed by one or more digits; any
other shape is an error (`none`). -/
def goAtoi (s : String) : Option ℤ :=
  match s.toList with
  | [] => none
  | c :: cs =>
    if c.toNat = 43 then
      (if cs = [] then none else (digitsValAux 0 cs).map (fun n => (n : ℤ)))
    else if c.toNat = 45 then
      (if cs = [] then none else (digitsValAux 0 cs).map (fun n => -(n : ℤ)))
    else (digitsValAux 0 (c :: cs)).map (fun n => (n : ℤ))

/-- Value of a digit run (no validity check; callers check first). -/
def digitsToNat (cs : List Char) : ℕ := cs.foldl (fun a c => a * 10 + (c.toNat - 48)) 0

/-- Digit-level reading of a decimal literal `ddd[.ddd]`: integer part,
fraction part, fraction length. `none` on any other shape. -/
def decRepr (cs : List Char) : Option (ℕ × ℕ × ℕ) :=
  let ip := cs.takeWhile Char.isDigit
  let rest := cs.dropWhile Char.isDigit
  match rest with
  | [] => if ip = [] then none else some (digitsToNat ip, 0, 0)
  | d :: fr =>
    if d.toNat = 46 ∧ fr.all Char.isDigit ∧ ¬(ip = [] ∧ fr = []) then
      some (digitsToNat ip, digitsToNat fr, fr.length)
    else none

/-- Sign-and-digits reading of a decimal literal: `true` for a leading minus. -/
def floatRepr (s : String) : Option (Bool × ℕ × ℕ × ℕ) :=
  match s.toList with
  | [] => none
  | c :: cs =>
    if c.toNat = 45 then (decRepr cs).map (fun r => (true, r))
    else if c.toNat = 43 then (decRepr cs).map (fun r => (false, r))
    else (decRepr (c :: cs)).map (fun r => (false, r))

/-- Go `strconv.ParseFloat` restricted to plain decimal notation. Every
embedded call site discards the error and keeps the value, which is 0 on a
syntax error — the permissive numeric-parse policy of the source. -/
def goParseFloat (s : String) : ℚ :=
  match floatRepr s with
  | none => 0
  | some (sgn, ip, fr, len) =>
    (if sgn then -1 else 1) * ((ip : ℚ) + (fr : ℚ) / (10 ^ len))

/-- Go `math.Round`: round half away from zero, as an integer. -/
def goRoundInt (x : ℚ) : ℤ := if x < 0 then Int.ceil (x - 1/2) else Int.floor (x + 1/2)

/-- Go `math.Round` as a rational (the source keeps the rounded value a float). -/
def goRound (x : ℚ) : ℚ := (goRoundInt x : ℚ)

/-- Go float-to-int conversion `int(x)`: truncation toward zero. -/
def goTrunc (x : ℚ) : ℤ := if x < 0 then Int.ceil x else Int.floor x

/-- Truncation toward zero on the reals, for `int(...)` applied to a value
that went through `math.Sqrt`. -/
noncomputable def goTruncR (x : ℝ) : ℤ := if x < 0 then Int.ceil x else Int.floor x

/-- `util.Pow`: `res := x`, then `res *= x` repeated `n-1` times (all call
sites use `n ≥ 2`). -/
def utilPow (x : ℚ) (n : ℕ) : ℚ := (List.range (n - 1)).foldl (fun r _ => r * x) x

/-- Reading one line: `ReadSlice('\n')` with the end-of-stream error ignored. -/
def nextLine : List String → String × List String
  | [] => (emptyStr, [])
  | l :: ls => (l, ls)

/-- The one error `util.HeaderBox` can raise ("unable to get the size of the
box"). -/
inductive HeaderErr
  | boxSize
deriving DecidableEq

/-- One box-extent line of `util.HeaderBox` (volume.go embedded util, lines
437-450): exactly two fields `lo hi`; box length is `hi - lo`; the
`ParseFloat` errors are ignored. -/
def headerBoxLine (l : String) : Except HeaderErr ℚ :=
  let fields := goFields l
  if fields.length ≠ 2 then .error .boxSize
  else .ok (goParseFloat (fields.getD 1 emptyStr) - goParseFloat (fields.getD 0 emptyStr))

/-- `util.HeaderBox`: the three box-extent lines. -/
def headerBox (ls : List String) : Except HeaderErr (Vec3 × List String) :=
  let (l1, ls) := nextLine ls
  match headerBoxLine l1 with
  | .error e => .error e
  | .ok b1 =>
    let (l2, ls) := nextLine ls
    match headerBoxLine l2 with
    | .error e => .error e
    | .ok b2 =>
      let (l3, ls) := nextLine ls
      match headerBoxLine l3 with
      | .error e => .error e
      | .ok b3 => .ok ((b1, b2, b3), ls)

/-- `util.Header` (volume.go embedded util, lines 421-433): skip 3 lines, read
the atom-count line — NOTE the source writes `atoms, _ = strconv.Atoi(...)`,
discarding the parse error, so an invalid count yields `atoms = 0` — skip one
more line, then the box block. -/
def utilHeader (ls : List String) : Except HeaderErr (ℤ × Vec3 × List String) :=
  let ls := ls.drop 3
  let (al, ls) := nextLine ls
  let atoms : ℤ := (goAtoi (goTrim al)).getD 0
  let ls := ls.drop 1
  match headerBox ls with
  | .error e => .error e
  | .ok (box, ls) => .ok (atoms, box, ls)

/-- `util.HeaderWOutAtoms`: skip 5 lines, then the box block. -/
def headerWOutAtoms (ls : List String) : Except HeaderErr (Vec3 × List String) :=
  headerBox (ls.drop 5)

/-- One axis of the minimum-image squared distance, exactly as accumulated in
gr.go lines 207-210 and volume.go lines 261-264. -/
def minImgSq (box d : ℚ) : ℚ := utilPow (d - box * goRound (d / box)) 2

/-- Squared minimum-image distance between two points in an orthorhombic box. -/
def minImg2 (box a b : Vec3) : ℚ :=
  minImgSq box.1 (a.1 - b.1) + minImgSq box.2.1 (a.2.1 - b.2.1) +
    minImgSq box.2.2 (a.2.2 - b.2.2)

example : goFields (String.mk [Char.ofNat 97, Char.ofNat 32, Char.ofNat 98]) =
    [String.mk [Char.ofNat 97], String.mk [Char.ofNat 98]] := by decide

example : goAtoi (String.mk [Char.ofNat 49, Char.ofNat 50]) = some 12 := by decide

example : goParseFloat (String.mk [Char.ofNat 49, Char.ofNat 46, Char.ofNat 53]) = 3/2 := by
  rw [goParseFloat, show floatRepr (String.mk [Char.ofNat 49, Char.ofNat 46, Char.ofNat 53])
    = some (false, 1, 5, 1) from by decide]
  norm_num

example : goRound (-1/500) = 0 ∧ goTrunc (5/2) = 2 ∧ goRoundInt (1/2) = 1 := by
  refine ⟨?_, ?_, ?_⟩ <;> simp [goRound, goRoundInt, goTrunc] <;> norm_num

/-- The column-header field names the calculations switch on. -/
def strX : String := "x"

def strY : String := "y"

def strZ : String := "z"

def strXu : String := "xu"

def strYu : String := "yu"

def strZu : String := "zu"

def strType : String := "type"

def strMol : String := "mol"

/-- The parse errors of the readers (their Go messages condensed to tags). -/
inductive ParseErr
  | header (e : HeaderErr)
  | atomCount
  | notEnoughCols (got : ℕ)
  | colsNotFound
  | rowCols (got expected : ℕ)
deriving DecidableEq

/-- Appending to one entry of a type-keyed table: `xyz[typ] = append(...)`. -/
def assocAppend (m : List (String × List Vec3)) (k : String) (v : Vec3) :
    List (String × List Vec3) :=
  m.map (fun p => if p.1 = k then (p.1, p.2 ++ [v]) else p)

/-- The column switch of gr readCfgFirst (part_002 lines 33-47): record where
x, y, z and type sit among the header fields and count the hits. -/
def grScanCols (fields : List String) : (ℕ × ℕ × ℕ × ℕ) × ℕ :=
  fields.enum.foldl
    (fun st p =>
      if p.2 = strX then ((p.1, st.1.2.1, st.1.2.2.1, st.1.2.2.2), st.2 + 1)
      else if p.2 = strY then ((st.1.1, p.1, st.1.2.2.1, st.1.2.2.2), st.2 + 1)
      else if p.2 = strZ then ((st.1.1, st.1.2.1, p.1, st.1.2.2.2), st.2 + 1)
      else if p.2 = strType then ((st.1.1, st.1.2.1, st.1.2.2.1, p.1), st.2 + 1)
      else st)
    ((0, 0, 0, 0), 0)

/-- gr readXYZ (part_002 lines 127-148): field-count check against colsLen,
then the type lookup and the permissive coordinate parse; atoms of a type not
in the table are dropped after the check. -/
def grReadXYZ (colsLen : ℕ) (cols : ℕ × ℕ × ℕ × ℕ) (xyz : List (String × List Vec3))
    (l : String) : Except ParseErr (String × List (String × List Vec3)) :=
  let fields := goFields l
  if fields.length ≠ colsLen then .error (.rowCols fields.length colsLen)
  else
    let typ := fields.getD cols.2.2.2 emptyStr
    match xyz.lookup typ with
    | none => .ok (typ, xyz)
    | some _ =>
      let v : Vec3 := (goParseFloat (fields.getD cols.1 emptyStr),
                       goParseFloat (fields.getD cols.2.1 emptyStr),
                       goParseFloat (fields.getD cols.2.2.1 emptyStr))
      .ok (typ, assocAppend xyz typ v)

/-- The row loop of gr fetchXYZFirst (part_002 lines 91-101): read `n` rows,
collecting the order of the types that key the Atoms table. -/
def grFetchLoop (grAtomsKeys : List String) (colsLen : ℕ) (cols : ℕ × ℕ × ℕ × ℕ) :
    ℕ → List (String × List Vec3) → List String → List String →
    Except ParseErr (List String × List (String × List Vec3) × List String)
  | 0, xyz, order, ls => .ok (order, xyz, ls)
  | n + 1, xyz, order, ls =>
    let (l, ls) := nextLine ls
    match grReadXYZ colsLen cols xyz l with
    | .error e => .error e
    | .ok (typ, xyz) =>
      grFetchLoop grAtomsKeys colsLen cols n xyz
        (if grAtomsKeys.contains typ then order ++ [typ] else order) ls

/-- gr readCfgFirst (part_002 lines 15-59): util.Header (whose Atoi error is
discarded), the column-header line, the x/y/z/type switch, then fetchXYZFirst
over the atom-count rows. `atomsTyp` and `grAtomsKeys` come from gr.New:
the types appearing in the Atoms table and that table's keys. -/
def grReadCfgFirst (atomsTyp grAtomsKeys : List String) (ls : List String) :
    Except ParseErr (Vec3 × List String × List (String × List Vec3) × List String) :=
  match utilHeader ls with
  | .error e => .error (.header e)
  | .ok (atoms, box, ls) =>
    let (l, ls) := nextLine ls
    let fields := goFields l
    if fields.length ≤ 2 then .error (.notEnoughCols fields.length)
    else
      let fields := fields.drop 2
      let (cols, found) := grScanCols fields
      if found < 4 then .error .colsNotFound
      else
        match grFetchLoop grAtomsKeys fields.length cols atoms.toNat
            (atomsTyp.map (fun t => (t, ([] : List Vec3)))) [] ls with
        | .error e => .error e
        | .ok (order, xyz, ls) => .ok (box, order, xyz, ls)

/-- The column switch of RadiusGyration.readCfgFirst (read.go lines 38-52):
xu, yu, zu and type. -/
def rogScanCols (fields : List String) : (ℕ × ℕ × ℕ × ℕ) × ℕ :=
  fields.enum.foldl
    (fun st p =>
      if p.2 = strXu then ((p.1, st.1.2.1, st.1.2.2.1, st.1.2.2.2), st.2 + 1)
      else if p.2 = strYu then ((st.1.1, p.1, st.1.2.2.1, st.1.2.2.2), st.2 + 1)
      else if p.2 = strZu then ((st.1.1, st.1.2.1, p.1, st.1.2.2.2), st.2 + 1)
      else if p.2 = strType then ((st.1.1, st.1.2.1, st.1.2.2.1, p.1), st.2 + 1)
      else st)
    ((0, 0, 0, 0), 0)

/-- One decoded row of RadiusGyration.fetchXYZ (read.go lines 91-103). -/
def rogRowParse (colsLen : ℕ) (cols : ℕ × ℕ × ℕ × ℕ) (l : String) :
    Except ParseErr (Vec3 × String) :=
  let fields := goFields l
  if fields.length ≠ colsLen then .error (.rowCols fields.length colsLen)
  else
    .ok ((goParseFloat (fields.getD cols.1 emptyStr),
          goParseFloat (fields.getD cols.2.1 emptyStr),
          goParseFloat (fields.getD cols.2.2.1 emptyStr)),
         fields.getD cols.2.2.2 emptyStr)

/-- The decoded-row loop of RadiusGyration.fetchXYZ (read.go lines 90-104). -/
def rogFetchRows (colsLen : ℕ) (cols : ℕ × ℕ × ℕ × ℕ) :
    ℕ → List String → Except ParseErr (List (Vec3 × String) × List String)
  | 0, ls => .ok ([], ls)
  | n + 1, ls =>
    let (l, ls) := nextLine ls
    match rogRowParse colsLen cols l with
    | .error e => .error e
    | .ok row =>
      match rogFetchRows colsLen cols n ls with
      | .error e => .error e
      | .ok (rows, ls) => .ok (row :: rows, ls)

/-- RadiusGyration.fetchXYZ (read.go lines 85-111): skip the rows before
AtomStart unchecked, decode the window [AtomStart, AtomEnd), skip the rows
after AtomEnd unchecked. -/
def rogFetchXYZ (atoms atomStart atomEnd colsLen : ℕ) (cols : ℕ × ℕ × ℕ × ℕ)
    (ls : List String) : Except ParseErr (List (Vec3 × String) × List String) :=
  match rogFetchRows colsLen cols (atomEnd - atomStart) (ls.drop atomStart) with
  | .error e => .error e
  | .ok (rows, ls) => .ok (rows, ls.drop (atoms - atomEnd))

/-- RadiusGyration.readCfgFirst (read.go lines 12-66): here the Atoi error IS
checked (line 18-21), unlike util.Header. -/
def rogReadCfgFirst (atomStart atomEnd : ℕ) (ls : List String) :
    Except ParseErr (List (Vec3 × String) × List String) :=
  let ls := ls.drop 3
  let (al, ls) := nextLine ls
  match goAtoi al with
  | none => .error .atomCount
  | some atoms =>
    let ls := ls.drop 4
    let (l, ls) := nextLine ls
    let fields := goFields l
    if fields.length ≤ 2 then .error (.notEnoughCols fields.length)
    else
      let fields := fields.drop 2
      let (cols, found) := rogScanCols fields
      if found < 4 then .error .colsNotFound
      else rogFetchXYZ atoms.toNat atomStart atomEnd fields.length cols ls

/-- The column switch of DistTwoAtoms.readCfgFirst (part_001 lines 42-54):
xu, yu, zu only. -/
def distScanCols (fields : List String) : (ℕ × ℕ × ℕ) × ℕ :=
  fields.enum.foldl
    (fun st p =>
      if p.2 = strXu then ((p.1, st.1.2.1, st.1.2.2), st.2 + 1)
      else if p.2 = strYu then ((st.1.1, p.1, st.1.2.2), st.2 + 1)
      else if p.2 = strZu then ((st.1.1, st.1.2.1, p.1), st.2 + 1)
      else st)
    ((0, 0, 0), 0)

/-- DistTwoAtoms.readXYZ (part_001 lines 117-130). -/
def distReadXYZ (colsLen : ℕ) (cols : ℕ × ℕ × ℕ) (ls : List String) :
    Except ParseErr (Vec3 × List String) :=
  let (l, ls) := nextLine ls
  let fields := goFields l
  if fields.length ≠ colsLen then .error (.rowCols fields.length colsLen)
  else
    .ok ((goParseFloat (fields.getD cols.1 emptyStr),
          goParseFloat (fields.getD cols.2.1 emptyStr),
          goParseFloat (fields.getD cols.2.2 emptyStr)), ls)

/-- DistTwoAtoms.fetchXYZ (part_001 lines 89-115): skip the rows before Atom1
unchecked, decode row Atom1, skip to Atom2 unchecked, decode row Atom2, skip
the rest unchecked. -/
def distFetchXYZ (atoms atom1 atom2 colsLen : ℕ) (cols : ℕ × ℕ × ℕ)
    (ls : List String) : Except ParseErr ((Vec3 × Vec3) × List String) :=
  match distReadXYZ colsLen cols (ls.drop atom1) with
  | .error e => .error e
  | .ok (x1, ls) =>
    match distReadXYZ colsLen cols (ls.drop (atom2 - atom1 - 1)) with
    | .error e => .error e
    | .ok (x2, ls) => .ok ((x1, x2), ls.drop (atoms - atom2 - 1))

/-- DistTwoAtoms.readCfgFirst (part_001 lines 16-68): the Atoi error IS
checked here (lines 22-25). -/
def distReadCfgFirst (atom1 atom2 : ℕ) (ls : List String) :
    Except ParseErr ((Vec3 × Vec3) × List String) :=
  let ls := ls.drop 3
  let (al, ls) := nextLine ls
  match goAtoi al with
  | none => .error .atomCount
  | some atoms =>
    let ls := ls.drop 4
    let (l, ls) := nextLine ls
    let fields := goFields l
    if fields.length ≤ 2 then .error (.notEnoughCols fields.length)
    else
      let fields := fields.drop 2
      let (cols, found) := distScanCols fields
      if found < 3 then .error .colsNotFound
      else distFetchXYZ atoms.toNat atom1 atom2 fields.length cols ls

/-- Half box per axis (`box2[k] = box[k] / 2`, nopbc read.go lines 22-25 and
141-144). -/
def vec3Half (b : Vec3) : Vec3 := (b.1 / 2, b.2.1 / 2, b.2.2 / 2)

/-- One axis of the first-frame wrap test of NoPBC.readCfgFirst (read.go lines
105-115): threshold `size`, correction folded into the running coordinate. -/
def nopbcFirstAxis (box size last raw : ℚ) : ℚ :=
  if last - raw > size then raw + box
  else if last - raw < -size then raw - box
  else raw

/-- The per-molecule running state of NoPBC.readCfgFirst: current molecule id,
running coordinates, per-axis threshold. Initial state has the Go zero
values. -/
structure NoPBCFirstSt where
  mol : String
  lastXYZ : Vec3
  size : Vec3
deriving DecidableEq

/-- One atom row of NoPBC.readCfgFirst (read.go lines 91-116): a new molecule
id resets the running coordinate to the raw one and establishes the threshold
(the Size override when configured, else the half box); the same molecule id
applies the wrap test with the established threshold. -/
def nopbcFirstStep (box box2 : Vec3) (size : List (String × Vec3))
    (st : NoPBCFirstSt) (row : String × Vec3) : NoPBCFirstSt :=
  if row.1 ≠ st.mol then
    { mol := row.1, lastXYZ := row.2, size := (size.lookup row.1).getD box2 }
  else
    { st with lastXYZ :=
        (nopbcFirstAxis box.1 st.size.1 st.lastXYZ.1 row.2.1,
         nopbcFirstAxis box.2.1 st.size.2.1 st.lastXYZ.2.1 row.2.2.1,
         nopbcFirstAxis box.2.2 st.size.2.2 st.lastXYZ.2.2 row.2.2.2) }

/-- NoPBC.readCfgFirst over the decoded atom rows of the first frame (mol tag
and raw coordinates, extracted as in read.go lines 86-106): emits the running
coordinate for every row. -/
def nopbcReadCfgFirst (box : Vec3) (size : List (String × Vec3))
    (rows : List (String × Vec3)) : List Vec3 :=
  (rows.foldl
    (fun (p : NoPBCFirstSt × List Vec3) row =>
      let st := nopbcFirstStep box (vec3Half box) size p.1 row
      (st, p.2 ++ [st.lastXYZ]))
    ({ mol := emptyStr, lastXYZ := (0, 0, 0), size := (0, 0, 0) }, [])).2

/-- One axis of NoPBC.readCfg (read.go lines 157-170): the raw coordinate
gets the running correction added, the wrap test runs against the CURRENT
frame's half box, and the correction and running coordinate are updated.
Returns (new correction, emitted coordinate). -/
def nopbcStepAxis (box box2 corr last raw : ℚ) : ℚ × ℚ :=
  let x := raw + corr
  if last - x > box2 then (corr + box, x + box)
  else if last - x < -box2 then (corr - box, x - box)
  else (corr, x)

/-- One atom of NoPBC.readCfg over the three axes; state is (correction,
running coordinate). -/
def nopbcStepAtom (box box2 : Vec3) (st : Vec3 × Vec3) (raw : Vec3) : Vec3 × Vec3 :=
  let a := nopbcStepAxis box.1 box2.1 st.1.1 st.2.1 raw.1
  let b := nopbcStepAxis box.2.1 box2.2.1 st.1.2.1 st.2.2.1 raw.2.1
  let c := nopbcStepAxis box.2.2 box2.2.2 st.1.2.2 st.2.2.2 raw.2.2
  ((a.1, b.1, c.1), (a.2, b.2, c.2))

/-- One frame of NoPBC.readCfg (read.go lines 149-173): every atom is updated
with the current frame's half box as threshold. The Size table is not
consulted here — readCfg never reads it. -/
def nopbcFrame (box : Vec3) (st : List (Vec3 × Vec3)) (rows : List Vec3) :
    List (Vec3 × Vec3) :=
  List.zipWith (nopbcStepAtom box (vec3Half box)) st rows

/-- NoPBC.readCfg over all frames after the first (read.go lines 132-186):
the corrections start at zero once (line 133) and persist across frames; the
running coordinates come from the first frame. Emits each frame's unwrapped
coordinates. -/
def nopbcReadCfg (lastXYZ : List Vec3) (frames : List (Vec3 × List Vec3)) :
    List (List Vec3) :=
  (frames.foldl
    (fun (p : List (Vec3 × Vec3) × List (List Vec3)) f =>
      let st := nopbcFrame f.1 p.1 f.2
      (st, p.2 ++ [st.map Prod.snd]))
    (lastXYZ.map (fun l => (((0 : ℚ), (0 : ℚ), (0 : ℚ)), l)), [])).2

/-- CLAIM-side model for C4 (from the claim's words, not from the source):
the wrap threshold for an entity is the one established at first encounter —
the Size override when one exists for its molecule id, else the half box. -/
def nopbcClaimThreshold (box : Vec3) (size : List (String × Vec3)) (mol : String) : Vec3 :=
  (size.lookup mol).getD (vec3Half box)

/-- CLAIM-side model for C4: the later-frame axis update with the established
threshold `t` in place of the current half box. -/
def nopbcClaimStepAxis (box t corr last raw : ℚ) : ℚ × ℚ :=
  let x := raw + corr
  if last - x > t then (corr + box, x + box)
  else if last - x < -t then (corr - box, x - box)
  else (corr, x)

/-- CLAIM-side model for C4: one atom over the three axes with its
established threshold. -/
def nopbcClaimStepAtom (box t : Vec3) (st : Vec3 × Vec3) (raw : Vec3) : Vec3 × Vec3 :=
  let a := nopbcClaimStepAxis box.1 t.1 st.1.1 st.2.1 raw.1
  let b := nopbcClaimStepAxis box.2.1 t.2.1 st.1.2.1 st.2.2.1 raw.2.1
  let c := nopbcClaimStepAxis box.2.2 t.2.2 st.1.2.2 st.2.2.2 raw.2.2
  ((a.1, b.1, c.1), (a.2, b.2, c.2))

/-- CLAIM-side model for C4: the whole run after the first frame, each atom
keeping the threshold established at its first encounter. -/
def nopbcClaimRun (box : Vec3) (size : List (String × Vec3))
    (firstRows : List (String × Vec3)) (frames : List (Vec3 × List Vec3)) :
    List (List Vec3) :=
  let ts := firstRows.map (fun r => nopbcClaimThreshold box size r.1)
  (frames.foldl
    (fun (p : List (Vec3 × Vec3) × List (List Vec3)) f =>
      let st := List.zipWith3 (nopbcClaimStepAtom f.1) ts p.1 f.2
      (st, p.2 ++ [st.map Prod.snd]))
    ((nopbcReadCfgFirst box size firstRows).map (fun l => (((0 : ℚ), (0 : ℚ), (0 : ℚ)), l)),
     [])).2

/-- `bins = int(RMax / Dr)` (gr.go line 84). -/
def grBins (rmax dr : ℚ) : ℤ := goTrunc (rmax / dr)

/-- `rmax2 = util.Pow(RMax, 2)` (gr.go line 90). -/
def grRMax2 (rmax : ℚ) : ℚ := utilPow rmax 2

/-- The histogram index of GR.calc lines 213-214: `int(math.Sqrt(dist2)/Dr)`,
computed for a pair whose squared minimum-image distance passed the
`dist <= rmax2` guard of line 212. -/
noncomputable def grBinIndex (dr dist2 : ℚ) : ℤ :=
  goTruncR (Real.sqrt ((dist2 : ℚ) : ℝ) / ((dr : ℚ) : ℝ))

/-- The error of RadiusGyration.calc line 119. -/
inductive CalcErr
  | massNotFound (typ : String)
deriving DecidableEq

/-- The first loop of RadiusGyration.calc (lines 116-126): failing on a type
with no mass, otherwise accumulating the mass-weighted coordinate sums and
the total mass. -/
def rogComLoop (masses : List (String × ℚ)) :
    List (Vec3 × String) → Vec3 × ℚ → Except CalcErr (Vec3 × ℚ)
  | [], acc => .ok acc
  | (v, t) :: rest, acc =>
    match masses.lookup t with
    | none => .error (.massNotFound t)
    | some m =>
      rogComLoop masses rest
        ((acc.1.1 + v.1 * m, acc.1.2.1 + v.2.1 * m, acc.1.2.2 + v.2.2 * m), acc.2 + m)

/-- RadiusGyration.calc (radiusgyration.go lines 110-143) up to the square
root: the mass-weighted centroid, then the squared-deviation sum divided by
`len(xyz) * 3`. -/
def rogCalcRadius2 (masses : List (String × ℚ)) (pairs : List (Vec3 × String)) :
    Except CalcErr ℚ :=
  match rogComLoop masses pairs ((0, 0, 0), 0) with
  | .error e => .error e
  | .ok (s, mt) =>
    let com : Vec3 := (s.1 / mt, s.2.1 / mt, s.2.2 / mt)
    let radius := pairs.foldl
      (fun r p =>
        r + (p.1.1 - com.1) * (p.1.1 - com.1)
          + (p.1.2.1 - com.2.1) * (p.1.2.1 - com.2.1)
          + (p.1.2.2 - com.2.2) * (p.1.2.2 - com.2.2)) 0
    .ok (radius / ((pairs.length * 3 : ℕ) : ℚ))

/-- RadiusGyration.calc including `math.Sqrt` (line 142). -/
noncomputable def rogCalcRadius (masses : List (String × ℚ))
    (pairs : List (Vec3 × String)) : Except CalcErr ℝ :=
  (rogCalcRadius2 masses pairs).map (fun q => Real.sqrt ((q : ℚ) : ℝ))

/-- The frame loop of RadiusGyration.Start (radiusgyration.go lines 92-106)
given already-decoded frames: `r.calc(out, i, xyz, types)` DISCARDS calc's
returned error at both call sites (lines 96 and 103), so Start finishes with
nil; a row is written only for the frames whose calc succeeded. -/
def rogStartFrames (masses : List (String × ℚ))
    (frames : List (List (Vec3 × String))) : Except CalcErr (List ℚ) :=
  .ok (frames.filterMap (fun f => (rogCalcRadius2 masses f).toOption))

/-- CLAIM-side formula for C7 (from the claim's words): the mass-weighted
centroid of the resolved (mass, coordinate) list, then the sum of squared
deviations over 3N. -/
def rogSpecRadius2 (mxs : List (ℚ × Vec3)) : ℚ :=
  let mt := (mxs.map Prod.fst).sum
  let com : Vec3 := ((mxs.map (fun p => p.2.1 * p.1)).sum / mt,
                     (mxs.map (fun p => p.2.2.1 * p.1)).sum / mt,
                     (mxs.map (fun p => p.2.2.2 * p.1)).sum / mt)
  (mxs.map (fun p =>
      (p.2.1 - com.1) * (p.2.1 - com.1)
        + (p.2.2.1 - com.2.1) * (p.2.2.1 - com.2.1)
        + (p.2.2.2 - com.2.2) * (p.2.2.2 - com.2.2))).sum
    / ((mxs.length * 3 : ℕ) : ℚ)

/-- The analyte scan of Volume.calc (volume.go lines 251-273): running
minimum over all analyte atoms of the squared minimum-image distance from the
cell center divided by `sigma2 = util.Pow(Sigma, 2)`; `none` models the
initial `math.MaxFloat64`. Carries each atom's Sigma alongside its
coordinates. -/
def volAnalyteMin (box pos : Vec3) (ana : List (ℚ × Vec3)) : Option ℚ :=
  ana.foldl
    (fun cur p =>
      let d := minImg2 box p.2 pos / utilPow p.1 2
      match cur with
      | none => some d
      | some c => if d < c then some d else some c)
    none

/-- The non-analyte scan and final test of Volume.calc (lines 275-299): the
cell is kept iff no non-analyte atom's `math.Sqrt(dist2)/Sigma` beats the
analyte minimum. The source's early `break`s only stop further mutation after
`ptsTmp` is false, so the final flag is exactly this universal check; with no
analyte atom `distTmp` stays `MaxFloat64` and `ptsTmp` stays false. -/
def volCellAnalyte (box pos : Vec3) (ana oth : List (ℚ × Vec3)) : Prop :=
  match volAnalyteMin box pos ana with
  | none => False
  | some a =>
    ∀ p ∈ oth, ¬ (Real.sqrt ((minImg2 box p.2 pos : ℚ) : ℝ) / ((p.1 : ℚ) : ℝ) < ((a : ℚ) : ℝ))

/-- CLAIM-side predicate for C8 (from the claim's words, not from the
source): the cell counts iff the minimum over analyte atoms of the
minimum-image Euclidean DISTANCE normalized by that type's radius SQUARED is
strictly smaller than the minimum over the non-analyte atoms of the distance
normalized by their own radius — i.e. some analyte atom beats every
non-analyte atom strictly. -/
def volCellAnalyteClaim (box pos : Vec3) (ana oth : List (ℚ × Vec3)) : Prop :=
  ∃ p ∈ ana, ∀ q ∈ oth,
    Real.sqrt ((minImg2 box p.2 pos : ℚ) : ℝ) / (((p.1 : ℚ) : ℝ) ^ 2)
      < Real.sqrt ((minImg2 box q.2 pos : ℚ) : ℝ) / ((q.1 : ℚ) : ℝ)

/-- `bloc[k] = int(xyzt[k] / v.Bloc[k])` (volume.go line 208). -/
def volBlocIdx (bloc x : ℚ) : ℤ := goTrunc (x / bloc)

/-- `boxBlocs[k] = int(math.Round(box[k] / v.Bloc[k]))` (volume.go line 197). -/
def volBoxBlocs (box bloc : ℚ) : ℤ := goTrunc (goRound (box / bloc))

/-- The wrap of a candidate cell index at the box edge (volume.go lines
212-217). -/
def volWrap (nb i : ℤ) : ℤ := if i < 0 then i + nb else if i ≥ nb then i - nb else i

/-- The candidate cell indices of one axis (volume.go lines 211-220): for
each analyte atom, the wrapped window of `blocs` cells on each side of the
atom's cell. -/
def volAxisCands (bloc : ℚ) (blocs nb : ℤ) (xs : List ℚ) : Finset ℤ :=
  xs.foldl
    (fun s x =>
      s ∪ (Finset.Icc (volBlocIdx bloc x - blocs) (volBlocIdx bloc x + blocs)).image (volWrap nb))
    ∅

/-- The center of a candidate cell (volume.go line 256). -/
def volCellPos (bloc : Vec3) (c : ℤ × ℤ × ℤ) : Vec3 :=
  (bloc.1 * (c.1 : ℚ) + bloc.1 / 2,
   bloc.2.1 * (c.2.1 : ℚ) + bloc.2.1 / 2,
   bloc.2.2 * (c.2.2 : ℚ) + bloc.2.2 / 2)

open Classical in
/-- The marked-cell set `pts` of one frame of Volume.calc (lines 194-302):
the per-axis candidate sets are built from the analyte atoms only, and a
candidate cell is kept iff its analyte test passes. -/
noncomputable def volPts (bloc : Vec3) (blocs : ℤ × ℤ × ℤ) (box : Vec3)
    (ana oth : List (ℚ × Vec3)) : Finset (ℤ × ℤ × ℤ) :=
  let X := volAxisCands bloc.1 blocs.1 (volBoxBlocs box.1 bloc.1) (ana.map (fun p => p.2.1))
  let Y := volAxisCands bloc.2.1 blocs.2.1 (volBoxBlocs box.2.1 bloc.2.1)
    (ana.map (fun p => p.2.2.1))
  let Z := volAxisCands bloc.2.2 blocs.2.2 (volBoxBlocs box.2.2 bloc.2.2)
    (ana.map (fun p => p.2.2.2))
  (X ×ˢ Y ×ˢ Z).filter (fun c => volCellAnalyte box (volCellPos bloc c) ana oth)

/-- The worker loop of Volume.start (volume.go lines 159-191) reduced to the
stream effects, which all happen under the one mutex and are therefore the
same serialized sequence for every schedule and worker count: advance the
frame counter by CfgSpacing+1, stop at CfgEnd, skip CfgSpacing frames from
the stream, read and process one. Arguments: end, spacing, the counter `cfg`
and the stream cursor (index of the next unread frame); emits (frame index
processed, stream position it was read from). -/
def volLoop (endCfg spacing cfg cursor : ℕ) : List (ℕ × ℕ) :=
  if endCfg ≤ cfg + spacing + 1 then []
  else
    (cfg + spacing + 1, cursor + spacing) ::
      volLoop endCfg spacing (cfg + spacing + 1) (cursor + spacing + 1)
termination_by endCfg - cfg
decreasing_by simp_wf; omega

/-- Volume.Start (volume.go lines 108-157) reduced to frame selection:
ReadCfgNonCvg skips the first CfgStart frames, frame CfgStart is read and
processed on the calling thread, then the worker loop runs. -/
def volStartFrames (startCfg endCfg spacing : ℕ) : List (ℕ × ℕ) :=
  (startCfg, startCfg) :: volLoop endCfg spacing startCfg (startCfg + 1)

theorem utilPow_two (x : ℚ) : utilPow x 2 = x * x := by
  rw [utilPow, show (2 - 1 : ℕ) = 1 from rfl, show List.range 1 = [0] from by decide]
  simp

theorem goRound_eq_zero (x : ℚ) (h1 : -(1/2) < x) (h2 : x < 1/2) : goRound x = 0 := by
  rcases lt_or_le x 0 with h | h
  · rw [goRound, goRoundInt, if_pos h]
    have hc : Int.ceil (x - 1/2) = 0 := by
      rw [Int.ceil_eq_iff]
      push_cast
      refine ⟨by linarith, by linarith⟩
    rw [hc]
    norm_num
  · rw [goRound, goRoundInt, if_neg (not_lt.mpr h)]
    have hf : Int.floor (x + 1/2) = 0 := by
      rw [Int.floor_eq_iff]
      push_cast
      refine ⟨by linarith, by linarith⟩
    rw [hf]
    norm_num

/-- Input for C2: orthorhombic box 1000×1000×1000, a source atom at the
origin and a target atom at (2,0,0); RMax = 2, Dr = 1 (so bins = 2 and the
valid histogram columns are 0 and 1). -/
def c2Box : Vec3 := (1000, 1000, 1000)

def c2A : Vec3 := (0, 0, 0)

def c2B : Vec3 := (2, 0, 0)

theorem c2_minImg2 : minImg2 c2Box c2A c2B = 4 := by
  have h0 : goRound ((0 : ℚ) / 1000) = 0 := by
    apply goRound_eq_zero <;> norm_num
  have h2 : goRound ((0 - 2 : ℚ) / 1000) = 0 := by
    apply goRound_eq_zero <;> norm_num
  simp only [minImg2, minImgSq, c2Box, c2A, c2B, utilPow_two]
  rw [show ((0:ℚ) - 0) = 0 by norm_num] at *
  rw [h2, h0]
  norm_num

/-- C2: the claim says the bin index `int(dist/Dr)` of every pair passing the
`dist² ≤ RMax²` guard lies in [0, bins-1]. The code violates it: with
RMax = 2, Dr = 1 (bins = 2, rows allocated with 2 columns) and the pair of
`c2A` and `c2B` at minimum-image distance 2, the guard passes and the
computed index is 2 = bins, one past the last valid column — the increment
`g.hstg[pair][row][2]` is out of bounds (gr.go lines 212-217). -/
theorem c2_bin_index_overflow :
    minImg2 c2Box c2A c2B ≤ grRMax2 2
  ∧ grBins 2 1 = 2
  ∧ grBinIndex 1 (minImg2 c2Box c2A c2B) = 2 := by
  have hm := c2_minImg2
  refine ⟨by rw [hm, grRMax2, utilPow_two]; norm_num, ?_, ?_⟩
  · rw [grBins, goTrunc, if_neg (by norm_num)]
    norm_num
  · rw [hm, grBinIndex]
    have hs : Real.sqrt (((4 : ℚ) : ℝ)) = 2 := by
      rw [show (((4 : ℚ) : ℝ)) = (2 : ℝ) ^ 2 by norm_num,
        Real.sqrt_sq (by norm_num : (0 : ℝ) ≤ 2)]
    rw [hs, goTruncR, if_neg (by norm_num)]
    norm_num

/-- Input for C6: the Masses table only knows type "1"; the frame's selected
range contains an atom of type "2". -/
def c6Masses : List (String × ℚ) := [(("1" : String), 1)]

def c6Frame : List (Vec3 × String) := [(((0 : ℚ), 0, 0), ("2" : String))]

/-- C6: the claim says a missing mass makes RadiusGyration.Start return an
error naming the type. calc does return that error (radiusgyration.go line
119), but Start discards calc's return value at both call sites (lines 96 and
103) and completes with nil, writing no row for the failing frame — the first
conjunct is the error calc builds, the second is Start's nil result. -/
theorem c6_error_discarded :
    rogCalcRadius2 c6Masses c6Frame = .error (.massNotFound ("2" : String))
  ∧ rogStartFrames c6Masses [c6Frame] = .ok [] := ⟨rfl, rfl⟩

theorem rogComLoop_ok (masses : List (String × ℚ)) :
    ∀ (l : List (Vec3 × String)) (acc : Vec3 × ℚ),
      (∀ p ∈ l, ((masses.lookup p.2).isSome : Prop)) →
      rogComLoop masses l acc =
        .ok ((acc.1.1 + (l.map (fun p => p.1.1 * (masses.lookup p.2).getD 0)).sum,
              acc.1.2.1 + (l.map (fun p => p.1.2.1 * (masses.lookup p.2).getD 0)).sum,
              acc.1.2.2 + (l.map (fun p => p.1.2.2 * (masses.lookup p.2).getD 0)).sum),
             acc.2 + (l.map (fun p => (masses.lookup p.2).getD 0)).sum) := by
  intro l
  induction l with
  | nil => intro acc _; simp [rogComLoop]
  | cons x xs ih =>
    obtain ⟨v, t⟩ := x
    intro acc h
    obtain ⟨m, hm⟩ := Option.isSome_iff_exists.mp (h (v, t) (by simp))
    rw [rogComLoop, hm]
    dsimp only
    rw [ih _ (fun p hp => h p (by simp [hp]))]
    simp only [List.map_cons, List.sum_cons, hm, Option.getD_some]
    refine congrArg _ ?_
    refine Prod.ext (Prod.ext ?_ (Prod.ext ?_ ?_)) ?_ <;> dsimp <;> ring

theorem foldl_sq3_sum (cx cy cz : ℚ) (l : List (Vec3 × String)) :
    ∀ a : ℚ, l.foldl (fun r p =>
        r + (p.1.1 - cx) * (p.1.1 - cx) + (p.1.2.1 - cy) * (p.1.2.1 - cy)
          + (p.1.2.2 - cz) * (p.1.2.2 - cz)) a
      = a + (l.map (fun p =>
          (p.1.1 - cx) * (p.1.1 - cx) + (p.1.2.1 - cy) * (p.1.2.1 - cy)
            + (p.1.2.2 - cz) * (p.1.2.2 - cz))).sum := by
  induction l with
  | nil => intro a; simp
  | cons x xs ih =>
    intro a
    simp only [List.foldl_cons, List.map_cons, List.sum_cons, ih]
    ring

/-- Input for C7: two unit-mass atoms of type "A" at (-1,0,0) and (1,0,0). -/
def typeA : String := "A"

def c7Masses : List (String × ℚ) := [(typeA, 1)]

def c7Pairs : List (Vec3 × String) :=
  [(((-1 : ℚ), 0, 0), typeA), (((1 : ℚ), 0, 0), typeA)]

/-- C7: RadiusGyration.calc computes the mass-weighted centroid and returns
sqrt(S / (3N)) with S the sum of squared deviations and N the atom count (the
denominator is not mass-weighted); on the two-atom input the radius is
sqrt((1+1)/(2*3)). -/
theorem c7_radius_gyration :
    (∀ (masses : List (String × ℚ)) (pairs : List (Vec3 × String)),
        (∀ p ∈ pairs, ((masses.lookup p.2).isSome : Prop)) →
        rogCalcRadius2 masses pairs =
          .ok (rogSpecRadius2 (pairs.map (fun p => ((masses.lookup p.2).getD 0, p.1)))))
  ∧ rogCalcRadius c7Masses c7Pairs = .ok (Real.sqrt ((((1 + 1) / (2 * 3) : ℚ)) : ℝ)) := by
  have main : ∀ (masses : List (String × ℚ)) (pairs : List (Vec3 × String)),
      (∀ p ∈ pairs, ((masses.lookup p.2).isSome : Prop)) →
      rogCalcRadius2 masses pairs =
        .ok (rogSpecRadius2 (pairs.map (fun p => ((masses.lookup p.2).getD 0, p.1)))) := by
    intro masses pairs h
    rw [rogCalcRadius2, rogComLoop_ok masses pairs _ h]
    dsimp only
    rw [foldl_sq3_sum]
    simp only [rogSpecRadius2, List.map_map, Function.comp_def, zero_add, List.length_map]
  refine ⟨main, ?_⟩
  have h2 := main c7Masses c7Pairs (by decide)
  have hmap : c7Pairs.map (fun p => ((c7Masses.lookup p.2).getD 0, p.1))
      = [((1 : ℚ), ((-1 : ℚ), 0, 0)), ((1 : ℚ), ((1 : ℚ), 0, 0))] := rfl
  rw [hmap] at h2
  have h3 : rogSpecRadius2 [((1 : ℚ), ((-1 : ℚ), 0, 0)), ((1 : ℚ), ((1 : ℚ), 0, 0))]
      = 1/3 := by
    norm_num [rogSpecRadius2]
  rw [h3] at h2
  rw [rogCalcRadius, h2]
  have h4 : ((1 + 1) / (2 * 3) : ℚ) = 1/3 := by norm_num
  rw [h4]
  rfl

/-- The molecule id used in the nopbc scenarios. -/
def molA : String := "1"

def c5Box : Vec3 := ((10 : ℚ), 10, 10)

/-- C5: on frames after the first, each axis emits `x + box` when
`last - x > box2`, `x - box` when `last - x < -box2` and `x` otherwise, where
x is the raw coordinate plus the running correction and box2 the current half
box (read.go lines 157-170); with box 10, threshold 5, previous unwrapped 9.9
and raw 0.2 the full pipeline emits 10.2. -/
theorem c5_wrap_update :
    (∀ box t corr last raw : ℚ,
        (nopbcStepAxis box t corr last raw).2 =
          (if last - (raw + corr) > t then raw + corr + box
           else if last - (raw + corr) < -t then raw + corr - box
           else raw + corr))
  ∧ nopbcReadCfg (nopbcReadCfgFirst c5Box [] [(molA, ((99/10 : ℚ), 0, 0))])
      [(c5Box, [((1/5 : ℚ), 0, 0)])]
    = [[((51/5 : ℚ), 0, 0)]] := by
  constructor
  · intro box t corr last raw
    simp only [nopbcStepAxis]
    split_ifs <;> rfl
  · have h1 : nopbcReadCfgFirst c5Box [] [(molA, ((99/10 : ℚ), 0, 0))]
        = [((99/10 : ℚ), 0, 0)] := by
      simp [nopbcReadCfgFirst, nopbcFirstStep, show ¬(molA = emptyStr) from by decide]
    rw [h1]
    norm_num [nopbcReadCfg, nopbcFrame, nopbcStepAtom, nopbcStepAxis, vec3Half, c5Box]

/-- Input for C4: a Size override (1,1,1) for molecule "1" in a 10×10×10 box;
the first frame's atom sits at x = 5 and the next frame's raw x is 2, so the
coordinate moved by 3: above the override threshold 1, below the half box 5. -/
def c4Size : List (String × Vec3) := [(molA, ((1 : ℚ), 1, 1))]

def c4Rows : List (String × Vec3) := [(molA, ((5 : ℚ), 0, 0))]

def c4Frames : List (Vec3 × List Vec3) := [(((10 : ℚ), 10, 10), [((2 : ℚ), 0, 0)])]

/-- C4 counterexample: the code's second-frame output uses the half-box
threshold and emits 2, while the claim-side run — wrap test against the
threshold established at first encounter, here the Size override 1 — emits
12; the claim is false at this input. -/
theorem c4_counterexample :
    nopbcReadCfg (nopbcReadCfgFirst ((10 : ℚ), 10, 10) c4Size c4Rows) c4Frames
      = [[((2 : ℚ), 0, 0)]]
  ∧ nopbcClaimRun ((10 : ℚ), 10, 10) c4Size c4Rows c4Frames = [[((12 : ℚ), 0, 0)]]
  ∧ ¬ ([[((2 : ℚ), 0, 0)]] : List (List Vec3)) = [[((12 : ℚ), 0, 0)]] := by
  have h1 : nopbcReadCfgFirst ((10 : ℚ), 10, 10) c4Size c4Rows = [((5 : ℚ), 0, 0)] := by
    simp [nopbcReadCfgFirst, nopbcFirstStep, c4Rows,
      show ¬(molA = emptyStr) from by decide]
  refine ⟨?_, ?_, by norm_num [Prod.ext_iff]⟩
  · rw [h1]
    norm_num [nopbcReadCfg, nopbcFrame, nopbcStepAtom, nopbcStepAxis, vec3Half, c4Frames]
  · rw [nopbcClaimRun, h1]
    norm_num [nopbcClaimStepAtom, nopbcClaimStepAxis, nopbcClaimThreshold, c4Frames,
      c4Rows, c4Size, List.zipWith3]

/-- C4 amended: the Size override governs the wrap test only inside the first
frame — an atom of an already-seen molecule is tested against the threshold
established at that molecule's first atom, with no further lookup — while on
every subsequent frame the threshold is the current frame's half box for
every atom, whatever the Size table holds (readCfg never consults it). -/
theorem c4_amended :
    (∀ (box box2 : Vec3) (size size2 : List (String × Vec3)) (st : NoPBCFirstSt)
        (row : String × Vec3), row.1 = st.mol →
        nopbcFirstStep box box2 size st row = nopbcFirstStep box box2 size2 st row)
  ∧ nopbcReadCfgFirst ((10 : ℚ), 10, 10) c4Size
      [(molA, ((5 : ℚ), 0, 0)), (molA, ((7/2 : ℚ), 0, 0))]
      = [((5 : ℚ), 0, 0), ((27/2 : ℚ), 0, 0)]
  ∧ (∀ size : List (String × Vec3),
      nopbcReadCfg (nopbcReadCfgFirst ((10 : ℚ), 10, 10) size c4Rows) c4Frames
        = [[((2 : ℚ), 0, 0)]]) := by
  refine ⟨?_, ?_, ?_⟩
  · intro box box2 size size2 st row h
    simp [nopbcFirstStep, h]
  · have hl : List.lookup molA c4Size = some ((1 : ℚ), 1, 1) := rfl
    simp only [nopbcReadCfgFirst, List.foldl_cons, List.foldl_nil, nopbcFirstStep]
    norm_num [show ¬(molA = emptyStr) from by decide, hl, nopbcFirstAxis, vec3Half]
  · intro size
    have h1 : nopbcReadCfgFirst ((10 : ℚ), 10, 10) size c4Rows = [((5 : ℚ), 0, 0)] := by
      simp [nopbcReadCfgFirst, nopbcFirstStep, c4Rows,
        show ¬(molA = emptyStr) from by decide]
    rw [h1]
    norm_num [nopbcReadCfg, nopbcFrame, nopbcStepAtom, nopbcStepAxis, vec3Half, c4Frames]

theorem volLoop_closed (spacing : ℕ) :
    ∀ (n endCfg cfg : ℕ), endCfg - cfg ≤ n →
      volLoop endCfg spacing cfg (cfg + 1)
        = (List.range ((endCfg - cfg - 1) / (spacing + 1))).map
            (fun j => (cfg + (j + 1) * (spacing + 1), cfg + (j + 1) * (spacing + 1))) := by
  intro n
  induction n with
  | zero =>
    intro e c h
    rw [volLoop, if_pos (by omega)]
    rw [Nat.div_eq_of_lt (by omega)]
    simp
  | succ n ih =>
    intro e c h
    rw [volLoop]
    by_cases hc : e ≤ c + spacing + 1
    · rw [if_pos hc, Nat.div_eq_of_lt (by omega)]
      simp
    · rw [if_neg hc]
      have e1 : c + 1 + spacing = c + spacing + 1 := by omega
      rw [e1, ih e (c + spacing + 1) (by omega)]
      have h2 : e - c - 1 = (e - (c + spacing + 1) - 1) + (spacing + 1) := by omega
      rw [h2, Nat.add_div_right _ (Nat.succ_pos spacing), List.range_succ_eq_map,
        List.map_cons, List.map_map]
      congr 1
      · refine Prod.ext ?_ ?_ <;> simp only [zero_add, one_mul] <;> omega
      · apply List.map_congr_left
        intro j _
        simp only [Function.comp_def, Nat.succ_eq_add_one]
        refine Prod.ext ?_ ?_ <;> dsimp <;> ring

/-- C10: Volume.start processes exactly the frame indices
CfgStart + j·(CfgSpacing+1) that are strictly below CfgEnd, in increasing
order; the pair's second component is the stream position the frame was read
from, and its equality with the index says the CfgSpacing frames in between
are consumed by ReadCfgNonCvg and discarded without producing a row. -/
theorem c10_frame_selection (startCfg endCfg spacing : ℕ) (h : startCfg < endCfg) :
    volStartFrames startCfg endCfg spacing
      = (List.range ((endCfg - startCfg - 1) / (spacing + 1) + 1)).map
          (fun j => (startCfg + j * (spacing + 1), startCfg + j * (spacing + 1)))
  ∧ ∀ p ∈ volStartFrames startCfg endCfg spacing, p.1 < endCfg ∧ p.2 = p.1 := by
  have hmain : volStartFrames startCfg endCfg spacing
      = (List.range ((endCfg - startCfg - 1) / (spacing + 1) + 1)).map
          (fun j => (startCfg + j * (spacing + 1), startCfg + j * (spacing + 1))) := by
    rw [volStartFrames, volLoop_closed spacing (endCfg - startCfg) endCfg startCfg le_rfl,
      List.range_succ_eq_map, List.map_cons, List.map_map]
    congr 1
    refine Prod.ext ?_ ?_ <;> simp
  refine ⟨hmain, ?_⟩
  intro p hp
  rw [hmain] at hp
  obtain ⟨j, hj, rfl⟩ := List.mem_map.mp hp
  refine ⟨?_, rfl⟩
  have hj' : j < (endCfg - startCfg - 1) / (spacing + 1) + 1 := List.mem_range.mp hj
  have h2 : j * (spacing + 1) ≤ ((endCfg - startCfg - 1) / (spacing + 1)) * (spacing + 1) :=
    Nat.mul_le_mul_right _ (by omega)
  have h3 : ((endCfg - startCfg - 1) / (spacing + 1)) * (spacing + 1)
      ≤ endCfg - startCfg - 1 := Nat.div_mul_le_self _ _
  dsimp only
  omega

/-- Witness for C10 at CfgStart = 2, CfgEnd = 10, CfgSpacing = 2: the frames
processed are 2, 5, 8. -/
theorem c10_frame_selection_witness :
    volStartFrames 2 10 2 = (List.range ((10 - 2 - 1) / (2 + 1) + 1)).map
        (fun j => (2 + j * (2 + 1), 2 + j * (2 + 1)))
  ∧ ∀ p ∈ volStartFrames 2 10 2, p.1 < 10 ∧ p.2 = p.1 :=
  c10_frame_selection 2 10 2 (by norm_num)

/-- The first frame of the C3 stream: its atom-count line (4th line) is
"abc", not a valid integer; everything else is well-formed, with zero atom
rows to read once the count parses as 0. -/
def c3L1 : String := "ITEM: TIMESTEP"

def c3L2 : String := "0"

def c3L3 : String := "ITEM: NUMBER OF ATOMS"

def c3L4 : String := "abc"

def c3L5 : String := "ITEM: BOX BOUNDS pp pp pp"

def c3LBox : String := "0 10"

def c3LCols : String := "ITEM: ATOMS id x y z type"

def c3Stream : List String := [c3L1, c3L2, c3L3, c3L4, c3L5, c3LBox, c3LBox, c3LBox, c3LCols]

/-- gr configured with Atoms = {"1": ["2"]}: atomsTyp = ["1","2"], keys = ["1"]. -/
def c3Typs : List String := [("1" : String), ("2" : String)]

def c3Keys : List String := [("1" : String)]

theorem c3_goParseFloat_ten : goParseFloat ("10" : String) = 10 := by
  rw [goParseFloat, show floatRepr ("10" : String) = some (false, 10, 0, 0) from by decide]
  norm_num

theorem c3_goParseFloat_zero : goParseFloat ("0" : String) = 0 := by
  rw [goParseFloat, show floatRepr ("0" : String) = some (false, 0, 0, 0) from by decide]
  norm_num

theorem c3_headerBoxLine : headerBoxLine c3LBox = .ok (10 : ℚ) := by
  simp only [headerBoxLine, show goFields c3LBox = [("0" : String), ("10" : String)] from
    by decide]
  norm_num [emptyStr, c3_goParseFloat_ten, c3_goParseFloat_zero]

theorem c3_utilHeader : utilHeader c3Stream = .ok (0, ((10 : ℚ), 10, 10), [c3LCols]) := by
  have hbox : headerBox [c3LBox, c3LBox, c3LBox, c3LCols]
      = .ok (((10 : ℚ), 10, 10), [c3LCols]) := by
    simp only [headerBox, nextLine, c3_headerBoxLine]
  simp only [utilHeader, c3Stream, List.drop_succ_cons, List.drop_zero, nextLine,
    show goAtoi (goTrim c3L4) = none from by decide, Option.getD_none, hbox]

/-- C3 counterexample: the claim says every calculation fails to parse the
first frame when the atom-count line is not a valid integer. gr does not:
util.Header throws the Atoi error away, the count becomes 0, and
gr.readCfgFirst succeeds, returning the box and an empty per-type table. -/
theorem c3_counterexample :
    goAtoi (goTrim c3L4) = none
  ∧ grReadCfgFirst c3Typs c3Keys c3Stream
      = .ok (((10 : ℚ), 10, 10), [],
             [(("1" : String), ([] : List Vec3)), (("2" : String), ([] : List Vec3))], []) := by
  refine ⟨by decide, ?_⟩
  simp only [grReadCfgFirst, c3_utilHeader, nextLine,
    show goFields c3LCols = [("ITEM:" : String), ("ATOMS" : String), ("id" : String),
      ("x" : String), ("y" : String), ("z" : String), ("type" : String)] from by decide]
  norm_num
  rw [show grScanCols [("id" : String), ("x" : String), ("y" : String), ("z" : String),
    ("type" : String)] = ((1, 2, 3, 4), 4) from by decide]
  norm_num [c3Typs, grFetchLoop, Int.toNat]

/-- C3 amended: on an atom-count line that is not a valid integer,
dist_two_atoms and radius_gyration fail with a parse error, but the
calculations that go through util.Header (gr, volume, no_pbc) silently take
the count as 0 (the Atoi error is discarded) and their only remaining
first-frame failure mode there is the box check — with a well-formed rest of
the header they parse the first frame successfully, reading no atom rows. -/
theorem c3_amended :
    (∀ (atomStart atomEnd : ℕ) (ls : List String),
      goAtoi ((ls.drop 3).headD emptyStr) = none →
      rogReadCfgFirst atomStart atomEnd ls = .error .atomCount)
  ∧ (∀ (atom1 atom2 : ℕ) (ls : List String),
      goAtoi ((ls.drop 3).headD emptyStr) = none →
      distReadCfgFirst atom1 atom2 ls = .error .atomCount)
  ∧ (∀ ls : List String,
      goAtoi (goTrim ((ls.drop 3).headD emptyStr)) = none →
      utilHeader ls = .error .boxSize ∨
        ∃ box rest, utilHeader ls = .ok (0, box, rest)) := by
  refine ⟨?_, ?_, ?_⟩
  · intro s e ls h
    rw [rogReadCfgFirst]
    rcases hd : ls.drop 3 with _ | ⟨a, t⟩ <;> rw [hd] at h <;>
      simp only [List.headD] at h <;> simp [nextLine, h]
  · intro a1 a2 ls h
    rw [distReadCfgFirst]
    rcases hd : ls.drop 3 with _ | ⟨a, t⟩ <;> rw [hd] at h <;>
      simp only [List.headD] at h <;> simp [nextLine, h]
  · intro ls h
    rw [utilHeader]
    rcases hd : ls.drop 3 with _ | ⟨a, t⟩ <;> rw [hd] at h <;>
      simp only [List.headD] at h <;> simp only [nextLine, h, Option.getD_none]
    · rcases hb : headerBox (List.drop 1 ([] : List String)) with e | ⟨box, rest⟩
      · refine Or.inl ?_
        cases e
        rfl
      · exact Or.inr ⟨box, rest, rfl⟩
    · rcases hb : headerBox (t.drop 1) with e | ⟨box, rest⟩
      · refine Or.inl ?_
        cases e
        rfl
      · exact Or.inr ⟨box, rest, rfl⟩

/-- Witness for C3 amended at the concrete malformed stream. -/
theorem c3_amended_witness :
    rogReadCfgFirst 0 1 c3Stream = .error .atomCount
  ∧ distReadCfgFirst 0 1 c3Stream = .error .atomCount
  ∧ (utilHeader c3Stream = .error .boxSize ∨
      ∃ box rest, utilHeader c3Stream = .ok (0, box, rest)) :=
  ⟨c3_amended.1 0 1 c3Stream (by decide), c3_amended.2.1 0 1 c3Stream (by decide),
   c3_amended.2.2 c3Stream (by decide)⟩

theorem goParseFloat_repr (s : String) (n : ℕ) (h : floatRepr s = some (false, n, 0, 0)) :
    goParseFloat s = n := by
  rw [goParseFloat, h]
  norm_num

/-- Input for C9: a frame of 4 rows with colsLen = 4; the rows at positions 0
and 3 are malformed (one token), those at positions 1 = Atom1 and 2 = Atom2
are fine. -/
def c9Bad : String := "7"

def c9Good : String := "1 2 3 4"

def c9Rows : List String := [c9Bad, c9Good, c9Good, c9Bad]

/-- C9 counterexample: the claim says decoding errors whenever any of the
frame's rows has a field count ≠ colsLen. DistTwoAtoms.fetchXYZ consumes the
malformed rows 0 and 3 with no check (they are skipped by position,
part_001 lines 90-92 and 110-112) and succeeds. -/
theorem c9_counterexample :
    (goFields c9Bad).length ≠ 4
  ∧ distFetchXYZ 4 1 2 4 (0, 1, 2) c9Rows
      = .ok ((((1 : ℚ), 2, 3), ((1 : ℚ), 2, 3)), []) := by
  refine ⟨by decide, ?_⟩
  have h1 : goParseFloat ("1" : String) = 1 := by
    rw [goParseFloat_repr _ 1 (by decide)]
    norm_num
  have h2 : goParseFloat ("2" : String) = 2 := by
    rw [goParseFloat_repr _ 2 (by decide)]
    norm_num
  have h3 : goParseFloat ("3" : String) = 3 := by
    rw [goParseFloat_repr _ 3 (by decide)]
    norm_num
  simp only [distFetchXYZ, c9Rows, List.drop_succ_cons, List.drop_zero, nextLine,
    distReadXYZ]
  norm_num [emptyStr, h1, h2, h3,
    show goFields c9Good = [("1" : String), ("2" : String), ("3" : String), ("4" : String)]
      from by decide]

theorem rogFetchRows_all_good (colsLen : ℕ) (cols : ℕ × ℕ × ℕ × ℕ) :
    ∀ (window post : List String),
      (∀ r ∈ window, (goFields r).length = colsLen) →
      ∃ rows, rogFetchRows colsLen cols window.length (window ++ post) = .ok (rows, post) := by
  intro window
  induction window with
  | nil => intro post _; exact ⟨[], rfl⟩
  | cons r w ih =>
    intro post h
    obtain ⟨rows, hrows⟩ := ih post (fun x hx => h x (by simp [hx]))
    refine ⟨((goParseFloat ((goFields r).getD cols.1 emptyStr),
              goParseFloat ((goFields r).getD cols.2.1 emptyStr),
              goParseFloat ((goFields r).getD cols.2.2.1 emptyStr)),
             (goFields r).getD cols.2.2.2 emptyStr) :: rows, ?_⟩
    simp only [List.length_cons, List.cons_append, rogFetchRows, nextLine, rogRowParse,
      if_neg (show ¬((goFields r).length ≠ colsLen) from by simp [h r (by simp)]), hrows]

/-- C9 amended: only the rows a calculation decodes are checked against
colsLen — dist_two_atoms checks exactly rows Atom1 and Atom2 and
radius_gyration exactly the rows in [AtomStart, AtomEnd); the rows skipped by
position before, between and after the decoded ones are consumed with no
field-count check, so a malformed skipped row does not fail the frame. -/
theorem c9_amended :
    (∀ (pre mid post : List String) (r1 r2 : String) (colsLen atoms atom1 atom2 : ℕ)
        (cols : ℕ × ℕ × ℕ),
      pre.length = atom1 → mid.length = atom2 - atom1 - 1 →
      (goFields r1).length = colsLen → (goFields r2).length = colsLen →
      ∃ v1 v2 rest, distFetchXYZ atoms atom1 atom2 colsLen cols
        (pre ++ r1 :: (mid ++ r2 :: post)) = .ok ((v1, v2), rest))
  ∧ (∀ (pre rest : List String) (r1 : String) (colsLen atoms atom1 atom2 : ℕ)
        (cols : ℕ × ℕ × ℕ),
      pre.length = atom1 → (goFields r1).length ≠ colsLen →
      distFetchXYZ atoms atom1 atom2 colsLen cols (pre ++ r1 :: rest)
        = .error (.rowCols (goFields r1).length colsLen))
  ∧ (∀ (pre window post : List String) (colsLen atoms atomStart atomEnd : ℕ)
        (cols : ℕ × ℕ × ℕ × ℕ),
      pre.length = atomStart → window.length = atomEnd - atomStart →
      (∀ r ∈ window, (goFields r).length = colsLen) →
      ∃ rows rest, rogFetchXYZ atoms atomStart atomEnd colsLen cols
        (pre ++ (window ++ post)) = .ok (rows, rest)) := by
  refine ⟨?_, ?_, ?_⟩
  · intro pre mid post r1 r2 colsLen atoms atom1 atom2 cols hpre hmid h1 h2
    subst hpre
    rw [distFetchXYZ, List.drop_left]
    simp only [distReadXYZ, nextLine,
      if_neg (show ¬((goFields r1).length ≠ colsLen) from by simp [h1])]
    rw [← hmid, List.drop_left]
    simp only [distReadXYZ, nextLine,
      if_neg (show ¬((goFields r2).length ≠ colsLen) from by simp [h2])]
    exact ⟨_, _, _, rfl⟩
  · intro pre rest r1 colsLen atoms atom1 atom2 cols hpre h1
    subst hpre
    rw [distFetchXYZ, List.drop_left]
    simp only [distReadXYZ, nextLine, if_pos h1]
  · intro pre window post colsLen atoms atomStart atomEnd cols hpre hwin hgood
    subst hpre
    obtain ⟨rows, hrows⟩ := rogFetchRows_all_good colsLen cols window post hgood
    rw [rogFetchXYZ, List.drop_left, ← hwin, hrows]
    exact ⟨rows, _, rfl⟩

/-- Witness for C9 amended: the concrete frame of `c9Rows` split around its
decoded rows for dist_two_atoms, a malformed decoded row, and a well-formed
radius_gyration window. -/
theorem c9_amended_witness :
    (∃ v1 v2 rest, distFetchXYZ 4 1 2 4 (0, 1, 2)
        ([c9Bad] ++ c9Good :: ([] ++ c9Good :: [c9Bad])) = .ok ((v1, v2), rest))
  ∧ distFetchXYZ 4 0 2 1 (0, 1, 2) ([] ++ c9Good :: [c9Good, c9Bad])
      = .error (.rowCols (goFields c9Good).length 1)
  ∧ (∃ rows rest, rogFetchXYZ 4 1 3 4 (0, 1, 2, 3)
        ([c9Bad] ++ ([c9Good, c9Good] ++ [c9Bad])) = .ok (rows, rest)) :=
  ⟨c9_amended.1 [c9Bad] [] [c9Bad] c9Good c9Good 4 4 1 2 (0, 1, 2) rfl rfl
      (by decide) (by decide),
   c9_amended.2.1 [] [c9Good, c9Bad] c9Good 1 4 0 2 (0, 1, 2) rfl (by decide),
   c9_amended.2.2 [c9Bad] [c9Good, c9Good] [c9Bad] 4 4 1 3 (0, 1, 2, 3) rfl rfl
      (by decide)⟩

/-- Input for the C8 counterexample: a cell center at (1/2,1/2,1/2) in a
100³ box, one analyte atom at distance 1 (sigma 1) and one non-analyte atom
at distance 1 (sigma 1): an exact tie of the normalized metrics. -/
def c8Box : Vec3 := ((100 : ℚ), 100, 100)

def c8Pos : Vec3 := ((1/2 : ℚ), 1/2, 1/2)

def c8Ana : List (ℚ × Vec3) := [((1 : ℚ), ((3/2 : ℚ), 1/2, 1/2))]

def c8Oth : List (ℚ × Vec3) := [((1 : ℚ), ((1/2 : ℚ), 3/2, 1/2))]

theorem c8_minImg2_ana : minImg2 c8Box ((3/2 : ℚ), 1/2, 1/2) c8Pos = 1 := by
  have h0 : goRound ((0 : ℚ) / 100) = 0 := by apply goRound_eq_zero <;> norm_num
  have h1 : goRound ((3/2 - 1/2 : ℚ) / 100) = 0 := by apply goRound_eq_zero <;> norm_num
  simp only [minImg2, minImgSq, c8Box, c8Pos, utilPow_two]
  rw [show ((1/2 : ℚ) - 1/2) = 0 by norm_num] at *
  rw [h1, h0]
  norm_num

theorem c8_minImg2_oth : minImg2 c8Box ((1/2 : ℚ), 3/2, 1/2) c8Pos = 1 := by
  have h0 : goRound ((0 : ℚ) / 100) = 0 := by apply goRound_eq_zero <;> norm_num
  have h1 : goRound ((3/2 - 1/2 : ℚ) / 100) = 0 := by apply goRound_eq_zero <;> norm_num
  simp only [minImg2, minImgSq, c8Box, c8Pos, utilPow_two]
  rw [show ((1/2 : ℚ) - 1/2) = 0 by norm_num] at *
  rw [h1, h0]
  norm_num

theorem c8_analyteMin : volAnalyteMin c8Box c8Pos c8Ana = some 1 := by
  simp only [volAnalyteMin, c8Ana, List.foldl_cons, List.foldl_nil, c8_minImg2_ana,
    utilPow_two]
  norm_num

/-- C8 counterexample: at the tie input the code counts the cell as analyte
(the final test is `¬(other < analyteMin)`, volume.go line 285, so an exact
tie keeps `ptsTmp` true), while the claim's strict comparison — with ties to
the non-analyte side — says it must not be counted. -/
theorem c8_counterexample :
    volCellAnalyte c8Box c8Pos c8Ana c8Oth
  ∧ ¬ volCellAnalyteClaim c8Box c8Pos c8Ana c8Oth := by
  constructor
  · rw [volCellAnalyte]
    simp only [c8_analyteMin]
    intro p hp
    simp only [c8Oth, List.mem_singleton] at hp
    subst hp
    rw [c8_minImg2_oth]
    push_cast
    rw [Real.sqrt_one]
    norm_num
  · rw [volCellAnalyteClaim]
    rintro ⟨p, hp, hall⟩
    simp only [c8Ana, List.mem_singleton] at hp
    subst hp
    have h := hall ((1 : ℚ), ((1/2 : ℚ), 3/2, 1/2)) (by simp [c8Oth])
    rw [c8_minImg2_ana, c8_minImg2_oth] at h
    push_cast at h
    rw [Real.sqrt_one] at h
    norm_num at h

/-- Input for the C8 instance: Bloc = (1,1,1), Blocs = (0,0,0), box 100³, a
single analyte atom inside cell (2,3,4) and one far non-analyte atom. -/
def c8iAna : List (ℚ × Vec3) := [((1 : ℚ), ((23/10 : ℚ), 7/2, 9/2))]

def c8iOth : List (ℚ × Vec3) := [((1 : ℚ), ((13/2 : ℚ), 7/2, 9/2))]

theorem c8i_boxBlocs : volBoxBlocs 100 1 = 100 := by
  rw [volBoxBlocs, goRound,
    show goRoundInt ((100 : ℚ) / 1) = 100 from by
      rw [goRoundInt, if_neg (by norm_num)]; norm_num]
  rw [goTrunc, if_neg (by norm_num)]
  norm_num

theorem c8i_wrap2 : volWrap 100 2 = 2 := by
  rw [volWrap, if_neg (by norm_num), if_neg (by norm_num)]

theorem c8i_wrap3 : volWrap 100 3 = 3 := by
  rw [volWrap, if_neg (by norm_num), if_neg (by norm_num)]

theorem c8i_wrap4 : volWrap 100 4 = 4 := by
  rw [volWrap, if_neg (by norm_num), if_neg (by norm_num)]

theorem c8i_candsX : volAxisCands 1 0 100 [(23/10 : ℚ)] = {2} := by
  rw [volAxisCands, List.foldl_cons, List.foldl_nil,
    show volBlocIdx 1 (23/10 : ℚ) = 2 from by
      rw [volBlocIdx, goTrunc, if_neg (by norm_num)]
      rw [show ((23/10 : ℚ) / 1) = 23/10 by norm_num]
      rw [show ((2 : ℤ)) = ⌊(23/10 : ℚ)⌋ from by norm_num]]
  norm_num [Finset.Icc_self, Finset.image_singleton, c8i_wrap2]

theorem c8i_candsY : volAxisCands 1 0 100 [(7/2 : ℚ)] = {3} := by
  rw [volAxisCands, List.foldl_cons, List.foldl_nil,
    show volBlocIdx 1 (7/2 : ℚ) = 3 from by
      rw [volBlocIdx, goTrunc, if_neg (by norm_num)]
      rw [show ((7/2 : ℚ) / 1) = 7/2 by norm_num]
      rw [show ((3 : ℤ)) = ⌊(7/2 : ℚ)⌋ from by norm_num]]
  norm_num [Finset.Icc_self, Finset.image_singleton, c8i_wrap3]

theorem c8i_candsZ : volAxisCands 1 0 100 [(9/2 : ℚ)] = {4} := by
  rw [volAxisCands, List.foldl_cons, List.foldl_nil,
    show volBlocIdx 1 (9/2 : ℚ) = 4 from by
      rw [volBlocIdx, goTrunc, if_neg (by norm_num)]
      rw [show ((9/2 : ℚ) / 1) = 9/2 by norm_num]
      rw [show ((4 : ℤ)) = ⌊(9/2 : ℚ)⌋ from by norm_num]]
  norm_num [Finset.Icc_self, Finset.image_singleton, c8i_wrap4]

theorem c8i_cellPos :
    volCellPos ((1 : ℚ), 1, 1) (((2 : ℤ)), ((3 : ℤ)), ((4 : ℤ)))
      = ((5/2 : ℚ), 7/2, 9/2) := by
  norm_num [volCellPos]

theorem c8i_minImg2_ana :
    minImg2 ((100 : ℚ), 100, 100) ((23/10 : ℚ), 7/2, 9/2) ((5/2 : ℚ), 7/2, 9/2)
      = 1/25 := by
  have h0 : goRound ((0 : ℚ) / 100) = 0 := by apply goRound_eq_zero <;> norm_num
  have h1 : goRound ((23/10 - 5/2 : ℚ) / 100) = 0 := by
    apply goRound_eq_zero <;> norm_num
  simp only [minImg2, minImgSq, utilPow_two]
  rw [show ((7/2 : ℚ) - 7/2) = 0 by norm_num, show ((9/2 : ℚ) - 9/2) = 0 by norm_num] at *
  rw [h1, h0]
  norm_num

theorem c8i_minImg2_oth :
    minImg2 ((100 : ℚ), 100, 100) ((13/2 : ℚ), 7/2, 9/2) ((5/2 : ℚ), 7/2, 9/2) = 16 := by
  have h0 : goRound ((0 : ℚ) / 100) = 0 := by apply goRound_eq_zero <;> norm_num
  have h1 : goRound ((13/2 - 5/2 : ℚ) / 100) = 0 := by
    apply goRound_eq_zero <;> norm_num
  simp only [minImg2, minImgSq, utilPow_two]
  rw [show ((7/2 : ℚ) - 7/2) = 0 by norm_num, show ((9/2 : ℚ) - 9/2) = 0 by norm_num] at *
  rw [h1, h0]
  norm_num

theorem c8i_analyteMin :
    volAnalyteMin ((100 : ℚ), 100, 100) ((5/2 : ℚ), 7/2, 9/2) c8iAna = some (1/25) := by
  simp only [volAnalyteMin, c8iAna, List.foldl_cons, List.foldl_nil, c8i_minImg2_ana,
    utilPow_two]
  norm_num

theorem c8i_cell :
    volCellAnalyte ((100 : ℚ), 100, 100) ((5/2 : ℚ), 7/2, 9/2) c8iAna c8iOth := by
  rw [volCellAnalyte]
  simp only [c8i_analyteMin]
  intro p hp
  simp only [c8iOth, List.mem_singleton] at hp
  subst hp
  rw [c8i_minImg2_oth]
  have hs : Real.sqrt (((16 : ℚ) : ℝ)) = 4 := by
    rw [show (((16 : ℚ) : ℝ)) = (4 : ℝ) ^ 2 by norm_num,
      Real.sqrt_sq (by norm_num : (0 : ℝ) ≤ 4)]
  rw [hs]
  push_cast
  norm_num

/-- C8 amended: a candidate cell is counted as analyte iff some analyte atom
exists and the analyte minimum of (squared minimum-image distance)/sigma² is
≤ every non-analyte atom's (minimum-image distance)/sigma — the analyte side
is measured by the SQUARED distance over sigma² (no square root, volume.go
line 266) and an exact tie goes to the analyte side (strict `<` on line 285);
with a neighbourhood of 0 blocs a single analyte atom far from the others
marks exactly the one grid cell containing it. -/
theorem c8_amended :
    (∀ (box pos : Vec3) (ana oth : List (ℚ × Vec3)),
        volCellAnalyte box pos ana oth ↔
          ∃ m, volAnalyteMin box pos ana = some m ∧
            ∀ q ∈ oth, ((m : ℚ) : ℝ)
              ≤ Real.sqrt ((minImg2 box q.2 pos : ℚ) : ℝ) / ((q.1 : ℚ) : ℝ))
  ∧ volPts ((1 : ℚ), 1, 1) (0, 0, 0) ((100 : ℚ), 100, 100) c8iAna c8iOth
      = {(((2 : ℤ)), ((3 : ℤ)), ((4 : ℤ)))} := by
  constructor
  · intro box pos ana oth
    rw [volCellAnalyte]
    rcases hmin : volAnalyteMin box pos ana with _ | a
    · simp
    · simp only [Option.some.injEq]
      constructor
      · intro hf
        exact ⟨a, rfl, fun q hq => not_lt.mp (hf q hq)⟩
      · rintro ⟨m, rfl, hall⟩ q hq
        exact not_lt.mpr (hall q hq)
  · rw [volPts]
    simp only
    rw [show (c8iAna.map (fun p => p.2.1)) = [(23/10 : ℚ)] from rfl,
      show (c8iAna.map (fun p => p.2.2.1)) = [(7/2 : ℚ)] from rfl,
      show (c8iAna.map (fun p => p.2.2.2)) = [(9/2 : ℚ)] from rfl]
    norm_num [c8i_boxBlocs, c8i_candsX, c8i_candsY, c8i_candsZ]
    rw [Finset.filter_singleton,
      if_pos (by rw [show (1 : Vec3) = ((1 : ℚ), 1, 1) from rfl, c8i_cellPos]
                 exact c8i_cell)]

/-- Witness for C8 amended: the iff at the concrete tie-free instance input. -/
theorem c8_amended_witness :
    volCellAnalyte ((100 : ℚ), 100, 100) ((5/2 : ℚ), 7/2, 9/2) c8iAna c8iOth ↔
      ∃ m, volAnalyteMin ((100 : ℚ), 100, 100) ((5/2 : ℚ), 7/2, 9/2) c8iAna = some m ∧
        ∀ q ∈ c8iOth, ((m : ℚ) : ℝ)
          ≤ Real.sqrt ((minImg2 ((100 : ℚ), 100, 100) q.2 ((5/2 : ℚ), 7/2, 9/2) : ℚ) : ℝ)
              / ((q.1 : ℚ) : ℝ) :=
  c8_amended.1 ((100 : ℚ), 100, 100) ((5/2 : ℚ), 7/2, 9/2) c8iAna c8iOth
